import Mathlib

/-!
Verification of the score-merge and leaderboard logic of
`scoreboard-server.js` (Express scoreboard server, Firebase variant).

The JavaScript handlers are shallowly embedded: request bodies become
`Submission` values whose numeric fields carry the result of the JS
`Number(...)` conversion (`JSNum`), the persisted `scores.json` content
becomes a `List Player`, the optional Firebase RTDB mirror becomes an
association list, and each HTTP handler becomes a pure function from the
store and the request to a response plus the new store contents.
Timestamps are abstracted to naturals; JS numbers are rationals plus
NaN/±Infinity; `String.prototype.toLowerCase`/`trim` are modelled by
ASCII lowercasing and whitespace trimming over the character list.
-/

namespace Scoreboard

/-- Result of the JavaScript `Number(x)` conversion: NaN, ±Infinity, or a
finite value (modelled as a rational). -/
inductive JSNum where
  | nan
  | posInf
  | negInf
  | fin (q : ℚ)
deriving DecidableEq

/-- `Math.min(a, b)`: NaN-propagating minimum. -/
def jsMin : JSNum → JSNum → JSNum
  | .nan, _ => .nan
  | _, .nan => .nan
  | .negInf, _ => .negInf
  | _, .negInf => .negInf
  | .posInf, b => b
  | a, .posInf => a
  | .fin p, .fin q => .fin (min p q)

/-- `Math.max(a, b)`: NaN-propagating maximum. -/
def jsMax : JSNum → JSNum → JSNum
  | .nan, _ => .nan
  | _, .nan => .nan
  | .posInf, _ => .posInf
  | _, .posInf => .posInf
  | .negInf, b => b
  | a, .negInf => a
  | .fin p, .fin q => .fin (max p q)

/-- `Number.isFinite(x)`. -/
def JSNum.isFinite : JSNum → Bool
  | .fin _ => true
  | _ => false

/-- Characters removed by `String.prototype.trim` (common ASCII whitespace). -/
def jsWhitespace (c : Char) : Bool := c == ' ' || c == '\t' || c == '\n' || c == '\r'

/-- `String.prototype.trim`, modelled on the character list. -/
def jsTrim (s : String) : String :=
  ⟨((s.data.dropWhile jsWhitespace).reverse.dropWhile jsWhitespace).reverse⟩

/-- `String.prototype.toLowerCase`, modelled as ASCII lowercasing. -/
def jsLower (s : String) : String := ⟨s.data.map Char.toLower⟩

/-- The `completedCounts` field of a request body as received by the handler:
`undefined`, `null`, a non-object value, or an object (a key/value map,
values modelled as integers — the handler never inspects them). -/
inductive CCField where
  | absent
  | nullv
  | nonObject
  | obj (m : List (String × Int))
deriving DecidableEq

/-- A `/submit` request body after destructuring.  Numeric fields hold the
value of `Number(field)` (absent fields give `Number(undefined) = NaN`).
`name` is typed as a string: a missing or non-string name is rejected by
the handler's `typeof` guard, and the empty string is falsy, which the
embedding keeps as the `name = ""` rejection. -/
structure Submission where
  name : String
  score : JSNum := JSNum.nan
  category : Option String := none
  bankTotal : JSNum := JSNum.nan
  moleculesAvailable : JSNum := JSNum.nan
  completedCounts : CCField := CCField.absent
  atomsCreated : JSNum := JSNum.nan
  ptPercent : JSNum := JSNum.nan
  molPercent : JSNum := JSNum.nan
  electronsGathered : JSNum := JSNum.nan
  deaths : JSNum := JSNum.nan
  longestStreak : JSNum := JSNum.nan
  timeSeconds : JSNum := JSNum.nan
deriving DecidableEq

/-- A stored player record (an element of `data.players` in `scores.json`).
Optional fields are `none` when the key is absent from the JSON object. -/
structure Player where
  name : String
  category : String
  score : ℚ
  createdAt : Nat
  updatedAt : Nat
  bankTotal : Option ℚ := none
  moleculesAvailable : Option ℚ := none
  completedCounts : Option (List (String × Int)) := none
  atomsCreated : Option ℚ := none
  ptPercent : Option ℚ := none
  molPercent : Option ℚ := none
  electronsGathered : Option ℚ := none
  deaths : Option ℚ := none
  longestStreak : Option ℚ := none
  timeSeconds : Option ℚ := none
deriving DecidableEq

/-- An HTTP response: `res.json({ok:true})` or `res.status(code).json({error: msg})`. -/
inductive Resp where
  | ok200
  | err (status : Nat) (msg : String)
deriving DecidableEq

/-- HTTP status code of a response (`res.json` without `.status` is 200). -/
def Resp.status : Resp → Nat
  | .ok200 => 200
  | .err s _ => s

/-- `p.category || 'overall'`: the empty string is falsy. -/
def catKey (c : String) : String := if c = "" then "overall" else c

/-- One snapshot-field update on an existing record:
`if (Number.isFinite(Number(x))) rec.field = Number(x)`. -/
def snapUpd (old : Option ℚ) (incoming : JSNum) : Option ℚ :=
  match incoming with
  | .fin v => some v
  | _ => old

/-- `if (completedCounts && typeof completedCounts === 'object') rec.completedCounts = completedCounts`:
only a truthy object replaces the stored map. -/
def ccUpd (old : Option (List (String × Int))) (incoming : CCField) :
    Option (List (String × Int)) :=
  match incoming with
  | .obj m => some m
  | _ => old

/-- The `idx >= 0` branch of the `/submit` handler (lines 446–457): take the
max score, refresh `updatedAt`, and overwrite each snapshot field supplied
as a finite number; a truthy object `completedCounts` replaces the stored map.
(`data.players[idx].score || 0` is the identity on a rational score.) -/
def mergePlayer (r : Player) (s : Submission) (parsedScore : ℚ) (now : Nat) : Player :=
  { r with
    score := max r.score parsedScore
    updatedAt := now
    bankTotal := snapUpd r.bankTotal s.bankTotal
    moleculesAvailable := snapUpd r.moleculesAvailable s.moleculesAvailable
    completedCounts := ccUpd r.completedCounts s.completedCounts
    atomsCreated := snapUpd r.atomsCreated s.atomsCreated
    ptPercent := snapUpd r.ptPercent s.ptPercent
    molPercent := snapUpd r.molPercent s.molPercent
    electronsGathered := snapUpd r.electronsGathered s.electronsGathered
    deaths := snapUpd r.deaths s.deaths
    longestStreak := snapUpd r.longestStreak s.longestStreak
    timeSeconds := snapUpd r.timeSeconds s.timeSeconds }

/-- The `else` branch of the `/submit` handler (lines 458–476): a fresh entry
with `createdAt = updatedAt = now` and each optional field present only when
supplied as a finite number (resp. a truthy object). -/
def newPlayer (playerName cat : String) (parsedScore : ℚ) (s : Submission) (now : Nat) : Player :=
  { name := playerName
    category := cat
    score := parsedScore
    createdAt := now
    updatedAt := now
    bankTotal := snapUpd none s.bankTotal
    moleculesAvailable := snapUpd none s.moleculesAvailable
    completedCounts := ccUpd none s.completedCounts
    atomsCreated := snapUpd none s.atomsCreated
    ptPercent := snapUpd none s.ptPercent
    molPercent := snapUpd none s.molPercent
    electronsGathered := snapUpd none s.electronsGathered
    deaths := snapUpd none s.deaths
    longestStreak := snapUpd none s.longestStreak
    timeSeconds := snapUpd none s.timeSeconds }

/-- The record-lookup predicate of line 444:
`p.name.toLowerCase() === playerName.toLowerCase() && (p.category || 'overall') === cat`,
with `kname` the lowercased submitted name and `kcat` the resolved category. -/
def keyMatch (kname kcat : String) (p : Player) : Bool :=
  jsLower p.name == kname && catKey p.category == kcat

/-- `findIndex` + in-place update at the found index, else `push`, fused into
one traversal.  Also returns the updated/appended record, which the handler
calls `latest` (line 484: `idx >= 0 ? data.players[idx] : data.players[data.players.length - 1]`). -/
def upsert (key : Player → Bool) (f : Player → Player) (mk : Player) :
    List Player → List Player × Player
  | [] => ([mk], mk)
  | p :: ps =>
    if key p then (f p :: ps, f p)
    else
      let r := upsert key f mk ps
      (p :: r.1, r.2)

/-- The optional Firebase RTDB score mirror `/scores/<cat>/<key>`; `none` when
Firebase is not configured (`rtdb === null`). -/
abbrev Mirror : Type := Option (List ((String × String) × Player))

/-- `ref.set(payload)` on the RTDB path `(cat, key)`: replace any entry at
that path, keeping the others. -/
def mirrorSet (entries : List ((String × String) × Player)) (k : String × String)
    (v : Player) : List ((String × String) × Player) :=
  (entries.filter (fun e => e.1 != k)) ++ [(k, v)]

/-- `saveScoreToFirebase(entry)` (lines 307–318): no-op when Firebase is not
configured; otherwise writes `{...entry, updatedAt: now}` under
`/scores/<entry.category || 'overall'>/<(entry.name || 'anon').toLowerCase()>`.
The surrounding try/catch only logs a failure (`mirrorOk = false` leaves the
mirror unchanged). -/
def saveScoreToFirebase (mirror : Mirror) (entry : Player) (mirrorNow : Nat)
    (mirrorOk : Bool) : Mirror :=
  match mirror with
  | none => none
  | some entries =>
    if mirrorOk then
      let cat := catKey entry.category
      let key := jsLower (if entry.name = "" then "anon" else entry.name)
      some (mirrorSet entries (cat, key) { entry with updatedAt := mirrorNow })
    else some entries

/-- Outcome of one `/submit` request: the response, the persisted local
`scores.json` contents, and the mirror contents. -/
structure SubmitOut where
  resp : Resp
  players : List Player
  mirror : Mirror
deriving DecidableEq

/-- The `POST /submit` handler (Firebase variant, lines 428–489).
`writeOk` models whether the `fs.writeFileSync` inside `saveScores`
succeeds: its try/catch only logs a failure, leaving the stored file
unchanged and the response unaffected.  `mirrorOk` likewise for the RTDB
write.  `now`/`mirrorNow` are the two `new Date()` readings. -/
def submitHandler (players : List Player) (mirror : Mirror) (s : Submission)
    (now mirrorNow : Nat) (writeOk mirrorOk : Bool) : SubmitOut :=
  if s.name = "" then ⟨Resp.err 400 "Invalid name", players, mirror⟩
  else
    let playerName := jsTrim s.name
    let isGuest : Bool := playerName == "" || jsLower playerName == "guest"
    match s.score with
    | JSNum.fin parsedScore =>
      if parsedScore < 0 then ⟨Resp.err 400 "Invalid score", players, mirror⟩
      else
        let cat := catKey (s.category.getD "overall")
        let res := upsert (keyMatch (jsLower playerName) cat)
          (fun r => mergePlayer r s parsedScore now)
          (newPlayer playerName cat parsedScore s now) players
        let players' := if !isGuest && writeOk then res.1 else players
        let mirror' := if !isGuest then saveScoreToFirebase mirror res.2 mirrorNow mirrorOk
                       else mirror
        ⟨Resp.ok200, players', mirror'⟩
    | _ => ⟨Resp.err 400 "Invalid score", players, mirror⟩

/-- A sequence of `/submit` requests against the local store (each with its
own clock reading; local and mirror writes succeeding, mirror absent). -/
def submitFold (players : List Player) : List (Submission × Nat) → List Player
  | [] => players
  | x :: rest => submitFold (submitHandler players none x.1 x.2 x.2 true true).players rest

/-- Stable insertion of a record into a list sorted by score descending:
the record goes before the first strictly-lower-or-equal score, keeping
earlier equal-scored records first — the order produced by the stable
`sort((a, b) => (b.score || 0) - (a.score || 0))` of line 422. -/
def insertDesc (p : Player) : List Player → List Player
  | [] => [p]
  | q :: qs => if q.score ≤ p.score then p :: q :: qs else q :: insertDesc p qs

/-- Stable sort by score descending (the JS stable `Array.prototype.sort`
under the comparator of line 422). -/
def sortDesc : List Player → List Player
  | [] => []
  | p :: ps => insertDesc p (sortDesc ps)

/-- `arr.slice(0, end)` element count for the clamped limit: NaN converts to
0; a finite value truncates toward zero (negative and infinite values cannot
reach `slice` after `Math.max(1, Math.min(200, ·))`). -/
def sliceCount : JSNum → Nat
  | .fin q => if q ≤ 0 then 0 else q.num.toNat / q.den
  | _ => 0

/-- The `GET /scores` handler (lines 416–425).  `category` is the raw query
parameter (`none` when omitted); `limitNum` is `Number(req.query.limit)` for
a supplied non-empty limit parameter, `none` when omitted or empty (both are
falsy, so `|| 50` applies). -/
def scoresHandler (players : List Player) (category : Option String)
    (limitNum : Option JSNum) : List Player :=
  let cat := category.getD "overall"
  let limit := jsMax (JSNum.fin 1) (jsMin (JSNum.fin 200) (limitNum.getD (JSNum.fin 50)))
  let filtered := players.filter (fun p => catKey p.category == cat)
  (sortDesc filtered).take (sliceCount limit)

/-- A stored account record (an element of `users.json`). -/
structure Account where
  name : String
  nameLower : String
  passwordHash : String
  createdAt : Nat
  updatedAt : Nat
deriving DecidableEq

/-- Response of the `/signup` handler. -/
inductive SignupResp where
  | ok (name : String)
  | err (status : Nat) (msg : String)
deriving DecidableEq

/-- Outcome of one `/signup` request: response, local `users.json` contents,
and the RTDB user mirror (`none` when Firebase is not configured). -/
structure SignupOut where
  resp : SignupResp
  users : List Account
  remote : Option (List Account)
deriving DecidableEq

/-- `ref.set` on the RTDB path `/users/<nameLower>`. -/
def remoteSetUser (entries : List Account) (u : Account) : List Account :=
  (entries.filter (fun a => a.nameLower != u.nameLower)) ++ [u]

/-- `saveUserToFirebase(user)` (lines 321–331): no-op when Firebase is not
configured or `user.nameLower` is falsy. -/
def saveUserToFirebase (remote : Option (List Account)) (u : Account) :
    Option (List Account) :=
  match remote with
  | none => none
  | some entries =>
    if u.nameLower = "" then some entries else some (remoteSetUser entries u)

/-- The `POST /signup` handler (Firebase variant, lines 353–384).  `hash`
abstracts `bcrypt.hash(password, 10)`; `getUserFromFirebase` becomes a
lookup in the remote association list. -/
def signupHandler (users : List Account) (remote : Option (List Account))
    (name password : String) (hash : String → String) (now : Nat) : SignupOut :=
  if name = "" ∨ password = "" then
    ⟨SignupResp.err 400 "Name and password required", users, remote⟩
  else
    let playerName := jsTrim name
    let isGuest : Bool := playerName == "" || jsLower playerName == "guest"
    if playerName = "" then ⟨SignupResp.err 400 "Invalid name", users, remote⟩
    else
      let lower := jsLower playerName
      let localExists := users.find? (fun u => u.nameLower == lower)
      let exists_ := match localExists with
        | some u => some u
        | none =>
          match remote with
          | some entries => entries.find? (fun u => u.nameLower == lower)
          | none => none
      match exists_ with
      | some _ => ⟨SignupResp.err 409 "User already exists", users, remote⟩
      | none =>
        let newUser : Account :=
          { name := playerName, nameLower := lower, passwordHash := hash password
            createdAt := now, updatedAt := now }
        let users' := users ++ [newUser]
        let remote' := if !isGuest then saveUserToFirebase remote newUser else remote
        ⟨SignupResp.ok playerName, users', remote'⟩

/-- Number of distinct keys of a count map. -/
def distinctKeys (m : List (String × Int)) : Nat := (m.map Prod.fst).dedup.length

/-- Modelled from the spec: the repository source contains no Progress
Aggregator — `percentOfCatalog` appears only in the specification (§4.1).
Following its words: `round(100 * distinctKeys(counts) / T)` clamped to
`[0, 100]`, returning 0 for absent/null/malformed or empty input or when
the catalog size `T` is 0.  `Math.round` rounds half up, so for naturals
`round(100k/T) = (200k + T) / (2T)` in truncating division. -/
def percentOfCatalog (T : Nat) (counts : CCField) : Nat :=
  match counts with
  | CCField.obj m =>
    let k := distinctKeys m
    if T = 0 ∨ k = 0 then 0
    else min 100 ((200 * k + T) / (2 * T))
  | _ => 0

/-- The trimmed lowered name / resolved category pair identifying a record. -/
def subKey (s : Submission) : String × String :=
  (jsLower (jsTrim s.name), catKey (s.category.getD "overall"))

/-- The guest test of line 435 applied to a submission's name. -/
def subGuest (s : Submission) : Bool :=
  jsTrim s.name == "" || jsLower (jsTrim s.name) == "guest"

/-- The score validation of lines 436–439 (finite and nonnegative). -/
def scoreValidB (s : Submission) : Bool :=
  match s.score with
  | JSNum.fin q => decide (0 ≤ q)
  | _ => false

/-- The submitted score, for valid submissions. -/
def scoreOf (s : Submission) : ℚ :=
  match s.score with
  | JSNum.fin q => q
  | _ => 0

/-- A submission that passes validation, is not a guest, and addresses the
key `(kname, kcat)`. -/
def goodSubB (kname kcat : String) (s : Submission) : Bool :=
  (s.name != "") && scoreValidB s && !subGuest s &&
  (jsLower (jsTrim s.name) == kname) && (catKey (s.category.getD "overall") == kcat)

theorem catKey_ne_empty (c : String) : catKey c ≠ "" := by
  unfold catKey
  split
  · decide
  · assumption

theorem catKey_idem (c : String) : catKey (catKey c) = catKey c := by
  unfold catKey
  split
  · decide
  · simp_all [catKey]

theorem upsert_no_match (key : Player → Bool) (f : Player → Player) (mk : Player)
    (l : List Player) (h : ∀ p ∈ l, key p = false) :
    upsert key f mk l = (l ++ [mk], mk) := by
  induction l with
  | nil => rfl
  | cons p ps ih =>
    have hp : key p = false := h p (by simp)
    simp [upsert, hp, ih (fun q hq => h q (by simp [hq]))]

theorem upsert_match (key : Player → Bool) (f : Player → Player) (mk : Player)
    (l₁ : List Player) (r : Player) (l₂ : List Player)
    (h₁ : ∀ p ∈ l₁, key p = false) (hr : key r = true) :
    upsert key f mk (l₁ ++ r :: l₂) = (l₁ ++ f r :: l₂, f r) := by
  induction l₁ with
  | nil => simp [upsert, hr]
  | cons p ps ih =>
    have hp : key p = false := h₁ p (by simp)
    simp [upsert, hp, ih (fun q hq => h₁ q (by simp [hq]))]

theorem keyMatch_mergePlayer (kn kc : String) (r : Player) (s : Submission) (q : ℚ)
    (now : Nat) (h : keyMatch kn kc r = true) :
    keyMatch kn kc (mergePlayer r s q now) = true := by
  simpa [keyMatch, mergePlayer] using h

theorem keyMatch_newPlayer (s : Submission) (q : ℚ) (now : Nat) :
    keyMatch (subKey s).1 (subKey s).2
      (newPlayer (jsTrim s.name) (subKey s).2 q s now) = true := by
  simp [keyMatch, newPlayer, subKey, catKey_idem]

/-- The `/submit` handler on a store whose first key match is `r`: 200
response, `r` replaced in place by `mergePlayer`. -/
theorem submit_update_eq (l₁ : List Player) (r : Player) (l₂ : List Player)
    (mirror : Mirror) (s : Submission) (q : ℚ) (now mirrorNow : Nat) (mirrorOk : Bool)
    (hname : s.name ≠ "") (hguest : subGuest s = false)
    (hsc : s.score = JSNum.fin q) (hq : 0 ≤ q)
    (h₁ : ∀ p ∈ l₁, keyMatch (subKey s).1 (subKey s).2 p = false)
    (hr : keyMatch (subKey s).1 (subKey s).2 r = true) :
    (submitHandler (l₁ ++ r :: l₂) mirror s now mirrorNow true mirrorOk).resp = Resp.ok200 ∧
    (submitHandler (l₁ ++ r :: l₂) mirror s now mirrorNow true mirrorOk).players
      = l₁ ++ mergePlayer r s q now :: l₂ := by
  have hg : (jsTrim s.name == "" || jsLower (jsTrim s.name) == "guest") = false := hguest
  have hup := upsert_match (keyMatch (jsLower (jsTrim s.name))
      (catKey (s.category.getD "overall")))
      (fun r => mergePlayer r s q now)
      (newPlayer (jsTrim s.name) (catKey (s.category.getD "overall")) q s now)
      l₁ r l₂ h₁ hr
  simp only [submitHandler, hsc, if_neg hname, if_neg (not_lt.mpr hq), hup, hg]
  simp

/-- The `/submit` handler on a store with no key match: 200 response, a fresh
record appended at the end. -/
theorem submit_append_eq (players : List Player) (mirror : Mirror) (s : Submission)
    (q : ℚ) (now mirrorNow : Nat) (mirrorOk : Bool)
    (hname : s.name ≠ "") (hguest : subGuest s = false)
    (hsc : s.score = JSNum.fin q) (hq : 0 ≤ q)
    (h₀ : ∀ p ∈ players, keyMatch (subKey s).1 (subKey s).2 p = false) :
    (submitHandler players mirror s now mirrorNow true mirrorOk).resp = Resp.ok200 ∧
    (submitHandler players mirror s now mirrorNow true mirrorOk).players
      = players ++ [newPlayer (jsTrim s.name) (subKey s).2 q s now] := by
  have hg : (jsTrim s.name == "" || jsLower (jsTrim s.name) == "guest") = false := hguest
  have hup := upsert_no_match (keyMatch (jsLower (jsTrim s.name))
      (catKey (s.category.getD "overall")))
      (fun r => mergePlayer r s q now)
      (newPlayer (jsTrim s.name) (catKey (s.category.getD "overall")) q s now)
      players h₀
  simp only [submitHandler, hsc, if_neg hname, if_neg (not_lt.mpr hq), hup, hg]
  simp [subKey]

theorem le_foldl_max (a : ℚ) (l : List ℚ) : a ≤ l.foldl max a := by
  induction l generalizing a with
  | nil => exact le_refl a
  | cons b bs ih => exact le_trans (le_max_left a b) (ih (max a b))

theorem mem_le_foldl_max (l : List ℚ) (a q : ℚ) (h : q ∈ l) : q ≤ l.foldl max a := by
  induction l generalizing a with
  | nil => cases h
  | cons b bs ih =>
    rcases List.mem_cons.mp h with h1 | h2
    · subst h1
      exact le_trans (le_max_right a q) (le_foldl_max _ _)
    · exact ih (max a b) h2

theorem foldl_max_mem (l : List ℚ) (a : ℚ) : l.foldl max a = a ∨ l.foldl max a ∈ l := by
  induction l generalizing a with
  | nil => exact Or.inl rfl
  | cons b bs ih =>
    rcases ih (max a b) with h | h
    · rcases max_choice a b with hm | hm
      · exact Or.inl (by rw [List.foldl_cons, h, hm])
      · exact Or.inr (by rw [List.foldl_cons, h, hm]; exact List.mem_cons_self b bs)
    · exact Or.inr (List.mem_cons_of_mem b h)

/-- Unpack `goodSubB` into its components. -/
theorem goodSubB_spec (kn kc : String) (s : Submission) (h : goodSubB kn kc s = true) :
    s.name ≠ "" ∧ subGuest s = false ∧ (∃ q : ℚ, s.score = JSNum.fin q ∧ 0 ≤ q) ∧
    subKey s = (kn, kc) := by
  simp only [goodSubB, Bool.and_eq_true, bne_iff_ne, Bool.not_eq_true',
    beq_iff_eq] at h
  obtain ⟨⟨⟨⟨hn, hs⟩, hng⟩, hk1⟩, hk2⟩ := h
  refine ⟨hn, hng, ?_, ?_⟩
  · cases hsc : s.score with
    | fin q =>
      refine ⟨q, rfl, ?_⟩
      simpa [scoreValidB, hsc] using hs
    | nan => simp [scoreValidB, hsc] at hs
    | posInf => simp [scoreValidB, hsc] at hs
    | negInf => simp [scoreValidB, hsc] at hs
  · simp [subKey, hk1, hk2]

/-- Invariant of a run of same-key submissions: the single record for the key
stays at its position, keeps its `createdAt`, and accumulates the running
maximum of the submitted scores. -/
theorem submitFold_invariant (kn kc : String) (subs : List (Submission × Nat)) :
    ∀ (ps : List Player) (r : Player),
    (∀ p ∈ ps, keyMatch kn kc p = false) → keyMatch kn kc r = true →
    (∀ x ∈ subs, goodSubB kn kc x.1 = true) →
    ∃ r', submitFold (ps ++ [r]) subs = ps ++ [r'] ∧ keyMatch kn kc r' = true ∧
      r'.score = (subs.map (fun x => scoreOf x.1)).foldl max r.score ∧
      r'.createdAt = r.createdAt := by
  induction subs with
  | nil => exact fun ps r _ hr _ => ⟨r, rfl, hr, rfl, rfl⟩
  | cons x rest ih =>
    intro ps r hps hr hall
    obtain ⟨s, now⟩ := x
    obtain ⟨hname, hguest, ⟨q, hsc, hq⟩, hkey⟩ :=
      goodSubB_spec kn kc s (hall (s, now) (by simp))
    have hps' : ∀ p ∈ ps, keyMatch (subKey s).1 (subKey s).2 p = false := by
      rw [hkey]; exact hps
    have hr' : keyMatch (subKey s).1 (subKey s).2 r = true := by
      rw [hkey]; exact hr
    have hstep := (submit_update_eq ps r [] none s q now now true
      hname hguest hsc hq hps' hr').2
    obtain ⟨r', hfold, hkm, hscore, hcreated⟩ :=
      ih ps (mergePlayer r s q now) hps
        (keyMatch_mergePlayer kn kc r s q now hr)
        (fun y hy => hall y (by simp [hy]))
    refine ⟨r', ?_, hkm, ?_, ?_⟩
    · simpa [submitFold, hstep] using hfold
    · rw [hscore]
      simp [mergePlayer, scoreOf, hsc]
    · rw [hcreated]; rfl

/-- C2: for every sequence of valid non-guest submissions sharing the same
key — the pair (lowercased trimmed name, resolved category, with the
category defaulting to "overall" when omitted) — run against a store with no
record for that key, the store afterwards holds exactly one new record for
the key, whose score is the maximum of all submitted scores (it bounds every
submitted score and is attained by one of them, a characterisation
independent of the submission order).  Submissions whose names differ only
in letter case share the key, hence update the same record. -/
theorem submit_sequence_score_is_max (players₀ : List Player) (kn kc : String)
    (s₀ : Submission) (n₀ : Nat) (rest : List (Submission × Nat))
    (h₀ : ∀ p ∈ players₀, keyMatch kn kc p = false)
    (hall : ∀ x ∈ (s₀, n₀) :: rest, goodSubB kn kc x.1 = true) :
    ∃ r', submitFold players₀ ((s₀, n₀) :: rest) = players₀ ++ [r'] ∧
      keyMatch kn kc r' = true ∧
      (∀ x ∈ (s₀, n₀) :: rest, scoreOf x.1 ≤ r'.score) ∧
      (∃ x ∈ (s₀, n₀) :: rest, scoreOf x.1 = r'.score) := by
  obtain ⟨hname, hguest, ⟨q₀, hsc₀, hq₀⟩, hkey⟩ :=
    goodSubB_spec kn kc s₀ (hall (s₀, n₀) (by simp))
  have h₀' : ∀ p ∈ players₀, keyMatch (subKey s₀).1 (subKey s₀).2 p = false := by
    rw [hkey]; exact h₀
  have hstep := (submit_append_eq players₀ none s₀ q₀ n₀ n₀ true
    hname hguest hsc₀ hq₀ h₀').2
  set r₀ := newPlayer (jsTrim s₀.name) (subKey s₀).2 q₀ s₀ n₀ with hr₀
  have hkm₀ : keyMatch kn kc r₀ = true := by
    rw [hr₀]
    have h := keyMatch_newPlayer s₀ q₀ n₀
    simp only [hkey] at h ⊢
    exact h
  obtain ⟨r', hfold, hkm, hscore, _⟩ :=
    submitFold_invariant kn kc rest players₀ r₀ h₀ hkm₀
      (fun y hy => hall y (by simp [hy]))
  have hr₀score : r₀.score = q₀ := rfl
  have hfold' : submitFold players₀ ((s₀, n₀) :: rest) = players₀ ++ [r'] := by
    simpa [submitFold, hstep] using hfold
  refine ⟨r', hfold', hkm, ?_, ?_⟩
  · intro x hx
    rcases List.mem_cons.mp hx with h1 | h2
    · subst h1
      rw [hscore, hr₀score]
      have : scoreOf s₀ = q₀ := by simp [scoreOf, hsc₀]
      rw [this]
      exact le_foldl_max _ _
    · rw [hscore]
      exact mem_le_foldl_max _ _ _ (List.mem_map_of_mem _ h2)
  · rw [hscore, hr₀score]
    rcases foldl_max_mem (rest.map (fun x => scoreOf x.1)) q₀ with h | h
    · refine ⟨(s₀, n₀), by simp, ?_⟩
      rw [h]
      simp [scoreOf, hsc₀]
    · obtain ⟨x, hx, hxe⟩ := List.mem_map.mp h
      exact ⟨x, by simp [hx], hxe⟩

/-- Witness for C2: "Alice" then "alice" (same key despite the case change,
category omitted on the first submission), scores 100 then 40; the stored
record's score bounds both submissions and is attained. -/
theorem submit_sequence_score_is_max_witness :
    ∃ r', submitFold []
        [({ name := "Alice", score := JSNum.fin 100 }, 0),
         ({ name := "alice", score := JSNum.fin 40, category := some "overall" }, 1)]
      = [] ++ [r'] ∧
      keyMatch "alice" "overall" r' = true ∧
      (∀ x ∈ [(({ name := "Alice", score := JSNum.fin 100 } : Submission), 0),
              ({ name := "alice", score := JSNum.fin 40, category := some "overall" }, 1)],
        scoreOf x.1 ≤ r'.score) ∧
      (∃ x ∈ [(({ name := "Alice", score := JSNum.fin 100 } : Submission), 0),
              ({ name := "alice", score := JSNum.fin 40, category := some "overall" }, 1)],
        scoreOf x.1 = r'.score) :=
  submit_sequence_score_is_max [] "alice" "overall"
    { name := "Alice", score := JSNum.fin 100 } 0
    [({ name := "alice", score := JSNum.fin 40, category := some "overall" }, 1)]
    (by simp) (by decide)

/-- C1 counterexample: the stored record holds `completedCounts {"1": 5, "2": 7}`
and the incoming submission carries `{"1": 2}`.  The claim requires the merged
map to keep `"1" ↦ max(5, 2) = 5` and retain `"2" ↦ 7`; the handler instead
stores the incoming object wholesale, so the result is `{"1": 2}`: the value
for `"1"` dropped below the maximum and the existing-only key `"2"` is gone. -/
theorem completedCounts_merge_counterexample :
    ((submitHandler
        [{ name := "alice", category := "overall", score := 5, createdAt := 0,
           updatedAt := 0, completedCounts := some [("1", 5), ("2", 7)] }]
        none
        { name := "alice", score := JSNum.fin 5,
          completedCounts := CCField.obj [("1", 2)] }
        1 1 true true).players.map (fun p => p.completedCounts))
      = [some [("1", 2)]] ∧
    (([("1", 2)] : List (String × Int)).lookup "1" = some 2 ∧ (2 : Int) < max 5 2 ∧
     ([("1", 2)] : List (String × Int)).lookup "2" = none) := by decide

/-- C1 amended: an incoming `completedCounts` that is a truthy object
replaces the stored map wholesale — the stored map becomes exactly the
submitted object, so keys present only in the existing map are dropped and a
lower incoming value overwrites a higher stored one (last submitted object
wins, not a per-key maximum). -/
theorem completedCounts_replaced_wholesale (l₁ : List Player) (r : Player)
    (l₂ : List Player) (mirror : Mirror) (s : Submission) (q : ℚ)
    (now mirrorNow : Nat) (mirrorOk : Bool) (m : List (String × Int))
    (hname : s.name ≠ "") (hguest : subGuest s = false)
    (hsc : s.score = JSNum.fin q) (hq : 0 ≤ q)
    (hcc : s.completedCounts = CCField.obj m)
    (h₁ : ∀ p ∈ l₁, keyMatch (subKey s).1 (subKey s).2 p = false)
    (hr : keyMatch (subKey s).1 (subKey s).2 r = true) :
    (submitHandler (l₁ ++ r :: l₂) mirror s now mirrorNow true mirrorOk).players
      = l₁ ++ mergePlayer r s q now :: l₂ ∧
    (mergePlayer r s q now).completedCounts = some m := by
  refine ⟨(submit_update_eq l₁ r l₂ mirror s q now mirrorNow mirrorOk
    hname hguest hsc hq h₁ hr).2, ?_⟩
  simp [mergePlayer, ccUpd, hcc]

/-- Witness for the amended C1 at a concrete store and submission. -/
theorem completedCounts_replaced_wholesale_witness :
    (submitHandler
        ([] ++ ({ name := "alice", category := "overall", score := 5, createdAt := 0,
                  updatedAt := 0, completedCounts := some [("1", 5), ("2", 7)] } : Player)
          :: [])
        none
        { name := "alice", score := JSNum.fin 5,
          completedCounts := CCField.obj [("1", 2)] }
        1 1 true true).players
      = [] ++ mergePlayer
          { name := "alice", category := "overall", score := 5, createdAt := 0,
            updatedAt := 0, completedCounts := some [("1", 5), ("2", 7)] }
          { name := "alice", score := JSNum.fin 5,
            completedCounts := CCField.obj [("1", 2)] }
          5 1 :: [] ∧
    (mergePlayer
        { name := "alice", category := "overall", score := 5, createdAt := 0,
          updatedAt := 0, completedCounts := some [("1", 5), ("2", 7)] }
        { name := "alice", score := JSNum.fin 5,
          completedCounts := CCField.obj [("1", 2)] }
        5 1).completedCounts = some [("1", 2)] :=
  completedCounts_replaced_wholesale [] _ [] none _ 5 1 1 true [("1", 2)]
    (by decide) (by decide) rfl (by norm_num) rfl (by simp) (by decide)

/-- C3 counterexample: two submissions that carry identical `completedCounts`
but different client-sent `ptPercent` values (42 and 7) produce stored
records with the same `completedCounts` and different `ptPercent` — the
stored `ptPercent` is taken from the client, not recomputed from the stored
counts (and the fields `uniqueElements`, `elementsCreated`, `totalCollected`,
`protonsGathered` are never written by the handler at all). -/
theorem ptPercent_client_supplied_counterexample :
    ((submitHandler [] none
        { name := "alice", score := JSNum.fin 1,
          completedCounts := CCField.obj [("1", 3)], ptPercent := JSNum.fin 42 }
        0 0 true true).players.map (fun p => (p.completedCounts, p.ptPercent)))
      = [(some [("1", 3)], some 42)] ∧
    ((submitHandler [] none
        { name := "alice", score := JSNum.fin 1,
          completedCounts := CCField.obj [("1", 3)], ptPercent := JSNum.fin 7 }
        0 0 true true).players.map (fun p => (p.completedCounts, p.ptPercent)))
      = [(some [("1", 3)], some 7)] ∧
    (42 : ℚ) ≠ 7 := by decide

/-- C3 amended: `ptPercent` (like `molPercent` and the other metadata fields)
is a client-supplied snapshot: whenever the submission carries a finite
`ptPercent`, the merged record stores exactly that client value; nothing is
recomputed from `completedCounts`. -/
theorem ptPercent_is_client_snapshot (l₁ : List Player) (r : Player)
    (l₂ : List Player) (mirror : Mirror) (s : Submission) (q v w : ℚ)
    (now mirrorNow : Nat) (mirrorOk : Bool)
    (hname : s.name ≠ "") (hguest : subGuest s = false)
    (hsc : s.score = JSNum.fin q) (hq : 0 ≤ q)
    (hpt : s.ptPercent = JSNum.fin v) (hmol : s.molPercent = JSNum.fin w)
    (h₁ : ∀ p ∈ l₁, keyMatch (subKey s).1 (subKey s).2 p = false)
    (hr : keyMatch (subKey s).1 (subKey s).2 r = true) :
    (submitHandler (l₁ ++ r :: l₂) mirror s now mirrorNow true mirrorOk).players
      = l₁ ++ mergePlayer r s q now :: l₂ ∧
    (mergePlayer r s q now).ptPercent = some v ∧
    (mergePlayer r s q now).molPercent = some w := by
  refine ⟨(submit_update_eq l₁ r l₂ mirror s q now mirrorNow mirrorOk
    hname hguest hsc hq h₁ hr).2, ?_, ?_⟩
  · simp [mergePlayer, snapUpd, hpt]
  · simp [mergePlayer, snapUpd, hmol]

/-- Witness for the amended C3 at a concrete store and submission. -/
theorem ptPercent_is_client_snapshot_witness :
    (submitHandler
        ([] ++ ({ name := "alice", category := "overall", score := 5, createdAt := 0,
                  updatedAt := 0 } : Player) :: [])
        none
        { name := "alice", score := JSNum.fin 5, ptPercent := JSNum.fin 42,
          molPercent := JSNum.fin 9 }
        1 1 true true).players
      = [] ++ mergePlayer
          { name := "alice", category := "overall", score := 5, createdAt := 0,
            updatedAt := 0 }
          { name := "alice", score := JSNum.fin 5, ptPercent := JSNum.fin 42,
            molPercent := JSNum.fin 9 }
          5 1 :: [] ∧
    (mergePlayer
        { name := "alice", category := "overall", score := 5, createdAt := 0,
          updatedAt := 0 }
        { name := "alice", score := JSNum.fin 5, ptPercent := JSNum.fin 42,
          molPercent := JSNum.fin 9 }
        5 1).ptPercent = some 42 ∧
    (mergePlayer
        { name := "alice", category := "overall", score := 5, createdAt := 0,
          updatedAt := 0 }
        { name := "alice", score := JSNum.fin 5, ptPercent := JSNum.fin 42,
          molPercent := JSNum.fin 9 }
        5 1).molPercent = some 9 :=
  ptPercent_is_client_snapshot [] _ [] none _ 5 42 9 1 1 true
    (by decide) (by decide) rfl (by norm_num) rfl rfl (by simp) (by decide)

/-- C4 counterexample: a valid submission whose local `scores.json` write
fails (the `fs.writeFileSync` inside `saveScores` throws) is still answered
`{ok:true}` with status 200 — not a 5xx `StorageFailure` — and the store is
left unchanged. -/
theorem storage_failure_not_surfaced_counterexample :
    (submitHandler [] none { name := "bob", score := JSNum.fin 5 } 0 0 false true).resp
      = Resp.ok200 ∧
    Resp.status
      (submitHandler [] none { name := "bob", score := JSNum.fin 5 } 0 0 false true).resp
      = 200 ∧
    (submitHandler [] none { name := "bob", score := JSNum.fin 5 } 0 0 false true).players
      = [] := by decide

/-- C4 amended: `saveScores` catches and only logs a failed local write, so
the `/submit` response is the same whatever the outcome of the local and
mirror writes, and a failed local write leaves the stored players unchanged
(no 5xx is ever produced by a storage failure). -/
theorem submit_response_ignores_write_failures (players : List Player)
    (mirror : Mirror) (s : Submission) (now mirrorNow : Nat) (w₁ w₂ m₁ m₂ : Bool) :
    (submitHandler players mirror s now mirrorNow w₁ m₁).resp
      = (submitHandler players mirror s now mirrorNow w₂ m₂).resp ∧
    (submitHandler players mirror s now mirrorNow false m₁).players = players := by
  constructor
  · unfold submitHandler
    split
    · rfl
    · cases s.score <;> simp
      split <;> rfl
  · unfold submitHandler
    split
    · rfl
    · cases s.score <;> simp
      split <;> simp

/-- C5 counterexample: signing up the reserved name `"guest"` on empty stores
is not rejected: it answers `{ok:true, name:"guest"}` and appends the account
to the local `users.json`; only the remote mirror write is skipped. -/
theorem guest_signup_counterexample :
    signupHandler [] (some []) "guest" "pw" (fun _ => "H") 0
      = ⟨SignupResp.ok "guest",
         [{ name := "guest", nameLower := "guest", passwordHash := "H",
            createdAt := 0, updatedAt := 0 }], some []⟩ := by decide

/-- C5 amended: `signUp` with a name whose trimmed lowercase form is
`"guest"` (and a non-empty password, no existing case-insensitive match)
succeeds: it returns the trimmed name, stores the account in the local users
store, and only skips the remote mirror write. -/
theorem guest_signup_stored_locally_only (users : List Account)
    (remote : Option (List Account)) (name password : String)
    (hash : String → String) (now : Nat)
    (hname : name ≠ "") (hpw : password ≠ "")
    (htrim : jsTrim name ≠ "") (hguest : jsLower (jsTrim name) = "guest")
    (hlocal : ∀ u ∈ users, u.nameLower ≠ "guest")
    (hremote : ∀ entries, remote = some entries → ∀ u ∈ entries, u.nameLower ≠ "guest") :
    signupHandler users remote name password hash now
      = ⟨SignupResp.ok (jsTrim name),
         users ++ [{ name := jsTrim name, nameLower := "guest",
                     passwordHash := hash password, createdAt := now, updatedAt := now }],
         remote⟩ := by
  have hfl : users.find? (fun u => u.nameLower == "guest") = none := by
    rw [List.find?_eq_none]
    intro u hu
    simp [hlocal u hu]
  unfold signupHandler
  rw [if_neg (by simp [hname, hpw]), if_neg htrim]
  simp only [hguest, hfl]
  cases remote with
  | none => simp [hguest]
  | some entries =>
    have hf2 : entries.find? (fun u => u.nameLower == "guest") = none := by
      rw [List.find?_eq_none]
      intro u hu
      simp [hremote entries rfl u hu]
    simp [hf2, hguest]

/-- Witness for the amended C5 at a concrete signup. -/
theorem guest_signup_stored_locally_only_witness :
    signupHandler [] (some []) " Guest " "pw" (fun _ => "H") 3
      = ⟨SignupResp.ok (jsTrim " Guest "),
         [] ++ [{ name := jsTrim " Guest ", nameLower := "guest",
                  passwordHash := "H", createdAt := 3, updatedAt := 3 }],
         some []⟩ :=
  guest_signup_stored_locally_only [] (some []) " Guest " "pw" (fun _ => "H") 3
    (by decide) (by decide) (by decide) (by decide) (by simp)
    (by intro entries he; cases he; simp)

/-- C6: a valid submission whose trimmed lowercased name is `"guest"` or
empty is acknowledged `{ok:true}`, but neither the local score store nor the
mirror is written — the stored state is identical before and after, so
leaderboard reads see the same store. -/
theorem guest_submission_not_persisted (players : List Player) (mirror : Mirror)
    (s : Submission) (now mirrorNow : Nat) (writeOk mirrorOk : Bool)
    (hname : s.name ≠ "") (hvalid : scoreValidB s = true) (hguest : subGuest s = true) :
    (submitHandler players mirror s now mirrorNow writeOk mirrorOk).resp = Resp.ok200 ∧
    (submitHandler players mirror s now mirrorNow writeOk mirrorOk).players = players ∧
    (submitHandler players mirror s now mirrorNow writeOk mirrorOk).mirror = mirror ∧
    ∀ (category : Option String) (limitNum : Option JSNum),
      scoresHandler (submitHandler players mirror s now mirrorNow writeOk mirrorOk).players
        category limitNum = scoresHandler players category limitNum := by
  obtain ⟨q, hsc, hq⟩ : ∃ q, s.score = JSNum.fin q ∧ 0 ≤ q := by
    cases hsc : s.score with
    | fin q => exact ⟨q, rfl, by simpa [scoreValidB, hsc] using hvalid⟩
    | nan => simp [scoreValidB, hsc] at hvalid
    | posInf => simp [scoreValidB, hsc] at hvalid
    | negInf => simp [scoreValidB, hsc] at hvalid
  have hg : (jsTrim s.name == "" || jsLower (jsTrim s.name) == "guest") = true := hguest
  have hsub : submitHandler players mirror s now mirrorNow writeOk mirrorOk
      = ⟨Resp.ok200, players, mirror⟩ := by
    unfold submitHandler
    rw [if_neg hname]
    simp only [hsc]
    rw [if_neg (not_lt.mpr hq)]
    simp [hg]
  exact ⟨by rw [hsub], by rw [hsub], by rw [hsub], fun c l => by rw [hsub]⟩

/-- Witness for C6: submitting as "Guest" over a nonempty store changes
nothing and still succeeds. -/
theorem guest_submission_not_persisted_witness :
    (submitHandler [] (some []) { name := "Guest", score := JSNum.fin 5 }
      0 0 true true).resp = Resp.ok200 ∧
    (submitHandler [] (some []) { name := "Guest", score := JSNum.fin 5 }
      0 0 true true).players = [] ∧
    (submitHandler [] (some []) { name := "Guest", score := JSNum.fin 5 }
      0 0 true true).mirror = some [] ∧
    scoresHandler (submitHandler [] (some []) { name := "Guest", score := JSNum.fin 5 }
      0 0 true true).players none none = scoresHandler [] none none := by
  obtain ⟨h1, h2, h3, h4⟩ := guest_submission_not_persisted [] (some [])
    { name := "Guest", score := JSNum.fin 5 } 0 0 true true
    (by decide) (by decide) (by decide)
  exact ⟨h1, h2, h3, h4 none none⟩

/-- C7: a valid non-guest submission whose score is lower than the stored
score for its key succeeds, leaves the stored score and `createdAt`
unchanged, refreshes `updatedAt` to the submission time, and overwrites each
snapshot field supplied as a finite number with the submitted value. -/
theorem lower_score_submission (l₁ : List Player) (r : Player) (l₂ : List Player)
    (mirror : Mirror) (s : Submission) (q : ℚ) (now mirrorNow : Nat) (mirrorOk : Bool)
    (hname : s.name ≠ "") (hguest : subGuest s = false)
    (hsc : s.score = JSNum.fin q) (hq : 0 ≤ q) (hlow : q < r.score)
    (h₁ : ∀ p ∈ l₁, keyMatch (subKey s).1 (subKey s).2 p = false)
    (hr : keyMatch (subKey s).1 (subKey s).2 r = true) :
    (submitHandler (l₁ ++ r :: l₂) mirror s now mirrorNow true mirrorOk).resp = Resp.ok200 ∧
    (submitHandler (l₁ ++ r :: l₂) mirror s now mirrorNow true mirrorOk).players
      = l₁ ++ mergePlayer r s q now :: l₂ ∧
    (mergePlayer r s q now).score = r.score ∧
    (mergePlayer r s q now).createdAt = r.createdAt ∧
    (mergePlayer r s q now).updatedAt = now ∧
    (∀ v, s.bankTotal = JSNum.fin v → (mergePlayer r s q now).bankTotal = some v) ∧
    (∀ v, s.moleculesAvailable = JSNum.fin v →
      (mergePlayer r s q now).moleculesAvailable = some v) ∧
    (∀ v, s.atomsCreated = JSNum.fin v → (mergePlayer r s q now).atomsCreated = some v) ∧
    (∀ v, s.molPercent = JSNum.fin v → (mergePlayer r s q now).molPercent = some v) ∧
    (∀ v, s.electronsGathered = JSNum.fin v →
      (mergePlayer r s q now).electronsGathered = some v) ∧
    (∀ v, s.deaths = JSNum.fin v → (mergePlayer r s q now).deaths = some v) ∧
    (∀ v, s.longestStreak = JSNum.fin v → (mergePlayer r s q now).longestStreak = some v) ∧
    (∀ v, s.timeSeconds = JSNum.fin v → (mergePlayer r s q now).timeSeconds = some v) := by
  obtain ⟨ha, hb⟩ := submit_update_eq l₁ r l₂ mirror s q now mirrorNow mirrorOk
    hname hguest hsc hq h₁ hr
  refine ⟨ha, hb, ?_, rfl, rfl, ?_, ?_, ?_, ?_, ?_, ?_, ?_, ?_⟩
  · simp [mergePlayer, max_eq_left (le_of_lt hlow)]
  all_goals exact fun v hv => by simp [mergePlayer, snapUpd, hv]

/-- Witness for C7: score 3 against a stored score 10; `timeSeconds` 123 and
`deaths` 2 overwrite the stored snapshot values. -/
theorem lower_score_submission_witness :
    (submitHandler
        [{ name := "dora", category := "overall", score := 10, createdAt := 4,
           updatedAt := 4, timeSeconds := some 50, deaths := some 9 }]
        none
        { name := "dora", score := JSNum.fin 3, timeSeconds := JSNum.fin 123,
          deaths := JSNum.fin 2 }
        8 8 true true).resp = Resp.ok200 ∧
    (submitHandler
        [{ name := "dora", category := "overall", score := 10, createdAt := 4,
           updatedAt := 4, timeSeconds := some 50, deaths := some 9 }]
        none
        { name := "dora", score := JSNum.fin 3, timeSeconds := JSNum.fin 123,
          deaths := JSNum.fin 2 }
        8 8 true true).players
      = [mergePlayer
          { name := "dora", category := "overall", score := 10, createdAt := 4,
            updatedAt := 4, timeSeconds := some 50, deaths := some 9 }
          { name := "dora", score := JSNum.fin 3, timeSeconds := JSNum.fin 123,
            deaths := JSNum.fin 2 }
          3 8] ∧
    (mergePlayer
        { name := "dora", category := "overall", score := 10, createdAt := 4,
          updatedAt := 4, timeSeconds := some 50, deaths := some 9 }
        { name := "dora", score := JSNum.fin 3, timeSeconds := JSNum.fin 123,
          deaths := JSNum.fin 2 }
        3 8).score
      = ({ name := "dora", category := "overall", score := 10, createdAt := 4,
           updatedAt := 4, timeSeconds := some 50, deaths := some 9 } : Player).score ∧
    (mergePlayer
        { name := "dora", category := "overall", score := 10, createdAt := 4,
          updatedAt := 4, timeSeconds := some 50, deaths := some 9 }
        { name := "dora", score := JSNum.fin 3, timeSeconds := JSNum.fin 123,
          deaths := JSNum.fin 2 }
        3 8).createdAt = 4 ∧
    (mergePlayer
        { name := "dora", category := "overall", score := 10, createdAt := 4,
          updatedAt := 4, timeSeconds := some 50, deaths := some 9 }
        { name := "dora", score := JSNum.fin 3, timeSeconds := JSNum.fin 123,
          deaths := JSNum.fin 2 }
        3 8).updatedAt = 8 ∧
    (mergePlayer
        { name := "dora", category := "overall", score := 10, createdAt := 4,
          updatedAt := 4, timeSeconds := some 50, deaths := some 9 }
        { name := "dora", score := JSNum.fin 3, timeSeconds := JSNum.fin 123,
          deaths := JSNum.fin 2 }
        3 8).timeSeconds = some 123 ∧
    (mergePlayer
        { name := "dora", category := "overall", score := 10, createdAt := 4,
          updatedAt := 4, timeSeconds := some 50, deaths := some 9 }
        { name := "dora", score := JSNum.fin 3, timeSeconds := JSNum.fin 123,
          deaths := JSNum.fin 2 }
        3 8).deaths = some 2 := by
  obtain ⟨h1, h2, h3, h4, h5, _, _, _, _, _, hdeaths, _, htime⟩ :=
    lower_score_submission []
      { name := "dora", category := "overall", score := 10, createdAt := 4,
        updatedAt := 4, timeSeconds := some 50, deaths := some 9 }
      [] none
      { name := "dora", score := JSNum.fin 3, timeSeconds := JSNum.fin 123,
        deaths := JSNum.fin 2 }
      3 8 8 true (by decide) (by decide) rfl (by norm_num) (by norm_num)
      (by simp) (by decide)
  exact ⟨h1, h2, h3, h4, h5, htime 123 rfl, hdeaths 2 rfl⟩

/-- C10: an accepted submission whose `completedCounts` is absent, null, or
not of object type leaves the stored `completedCounts` exactly as it was —
unchanged on the matched record, absent on a newly created one — and the
request is not rejected. -/
theorem nonobject_counts_ignored (s : Submission) (q : ℚ)
    (hname : s.name ≠ "") (hguest : subGuest s = false)
    (hsc : s.score = JSNum.fin q) (hq : 0 ≤ q)
    (hcc : s.completedCounts = CCField.absent ∨ s.completedCounts = CCField.nullv ∨
           s.completedCounts = CCField.nonObject) :
    (∀ (l₁ : List Player) (r : Player) (l₂ : List Player) (mirror : Mirror)
        (now mirrorNow : Nat) (mirrorOk : Bool),
      (∀ p ∈ l₁, keyMatch (subKey s).1 (subKey s).2 p = false) →
      keyMatch (subKey s).1 (subKey s).2 r = true →
      (submitHandler (l₁ ++ r :: l₂) mirror s now mirrorNow true mirrorOk).resp
        = Resp.ok200 ∧
      (submitHandler (l₁ ++ r :: l₂) mirror s now mirrorNow true mirrorOk).players
        = l₁ ++ mergePlayer r s q now :: l₂ ∧
      (mergePlayer r s q now).completedCounts = r.completedCounts) ∧
    (∀ (players : List Player) (mirror : Mirror) (now mirrorNow : Nat) (mirrorOk : Bool),
      (∀ p ∈ players, keyMatch (subKey s).1 (subKey s).2 p = false) →
      (submitHandler players mirror s now mirrorNow true mirrorOk).resp = Resp.ok200 ∧
      (submitHandler players mirror s now mirrorNow true mirrorOk).players
        = players ++ [newPlayer (jsTrim s.name) (subKey s).2 q s now] ∧
      (newPlayer (jsTrim s.name) (subKey s).2 q s now).completedCounts = none) := by
  have hccUpd : ∀ old, ccUpd old s.completedCounts = old := by
    intro old
    rcases hcc with h | h | h <;> simp [ccUpd, h]
  constructor
  · intro l₁ r l₂ mirror now mirrorNow mirrorOk h₁ hr
    obtain ⟨ha, hb⟩ := submit_update_eq l₁ r l₂ mirror s q now mirrorNow mirrorOk
      hname hguest hsc hq h₁ hr
    exact ⟨ha, hb, by simp [mergePlayer, hccUpd]⟩
  · intro players mirror now mirrorNow mirrorOk h₀
    obtain ⟨ha, hb⟩ := submit_append_eq players mirror s q now mirrorNow mirrorOk
      hname hguest hsc hq h₀
    exact ⟨ha, hb, by simp [newPlayer, hccUpd]⟩

/-- Witness for C10: a submission with no `completedCounts` field leaves the
existing map `{"3": 1}` stored, and creates a record without the field. -/
theorem nonobject_counts_ignored_witness :
    ((submitHandler
        ([] ++ ({ name := "Carol", category := "overall", score := 7, createdAt := 0,
                  updatedAt := 0, completedCounts := some [("3", 1)] } : Player) :: [])
        none { name := "carol", score := JSNum.fin 2 } 1 1 true true).resp
      = Resp.ok200 ∧
     (submitHandler
        ([] ++ ({ name := "Carol", category := "overall", score := 7, createdAt := 0,
                  updatedAt := 0, completedCounts := some [("3", 1)] } : Player) :: [])
        none { name := "carol", score := JSNum.fin 2 } 1 1 true true).players
      = [] ++ mergePlayer
          { name := "Carol", category := "overall", score := 7, createdAt := 0,
            updatedAt := 0, completedCounts := some [("3", 1)] }
          { name := "carol", score := JSNum.fin 2 } 2 1 :: [] ∧
     (mergePlayer
        { name := "Carol", category := "overall", score := 7, createdAt := 0,
          updatedAt := 0, completedCounts := some [("3", 1)] }
        { name := "carol", score := JSNum.fin 2 } 2 1).completedCounts
      = some [("3", 1)]) ∧
    ((submitHandler [] none { name := "carol", score := JSNum.fin 2 } 0 0 true true).resp
      = Resp.ok200 ∧
     (submitHandler [] none { name := "carol", score := JSNum.fin 2 } 0 0 true true).players
      = [] ++ [newPlayer (jsTrim "carol")
          (subKey { name := "carol", score := JSNum.fin 2 }).2 2
          { name := "carol", score := JSNum.fin 2 } 0] ∧
     (newPlayer (jsTrim "carol")
        (subKey { name := "carol", score := JSNum.fin 2 }).2 2
        { name := "carol", score := JSNum.fin 2 } 0).completedCounts = none) := by
  obtain ⟨hupd, happ⟩ := nonobject_counts_ignored
    { name := "carol", score := JSNum.fin 2 } 2
    (by decide) (by decide) rfl (by norm_num) (Or.inl rfl)
  obtain ⟨ha, hb, hc⟩ := hupd []
    { name := "Carol", category := "overall", score := 7, createdAt := 0,
      updatedAt := 0, completedCounts := some [("3", 1)] }
    [] none 1 1 true (by simp) (by decide)
  obtain ⟨hd, he, hf⟩ := happ [] none 0 0 true (by simp)
  exact ⟨⟨ha, hb, by rw [hc]⟩, ⟨hd, he, hf⟩⟩

theorem insertDesc_perm (p : Player) (l : List Player) :
    (insertDesc p l).Perm (p :: l) := by
  induction l with
  | nil => exact List.Perm.refl _
  | cons q qs ih =>
    unfold insertDesc
    split
    · exact List.Perm.refl _
    · exact (List.Perm.cons q ih).trans (List.Perm.swap p q qs)

theorem sortDesc_perm (l : List Player) : (sortDesc l).Perm l := by
  induction l with
  | nil => exact List.Perm.refl _
  | cons p ps ih =>
    exact (insertDesc_perm p (sortDesc ps)).trans (List.Perm.cons p ih)

theorem insertDesc_sorted (p : Player) (l : List Player)
    (h : l.Pairwise (fun a b => b.score ≤ a.score)) :
    (insertDesc p l).Pairwise (fun a b => b.score ≤ a.score) := by
  induction l with
  | nil => simp [insertDesc]
  | cons q qs ih =>
    obtain ⟨hq, hqs⟩ := List.pairwise_cons.mp h
    unfold insertDesc
    split
    case isTrue hle =>
      refine List.pairwise_cons.mpr ⟨?_, h⟩
      intro b hb
      rcases List.mem_cons.mp hb with rfl | hb2
      · exact hle
      · exact le_trans (hq b hb2) hle
    case isFalse hgt =>
      refine List.pairwise_cons.mpr ⟨?_, ih hqs⟩
      intro b hb
      rcases List.mem_cons.mp ((insertDesc_perm p qs).mem_iff.mp hb) with rfl | hb2
      · exact le_of_lt (not_le.mp hgt)
      · exact hq b hb2

theorem sortDesc_sorted (l : List Player) :
    (sortDesc l).Pairwise (fun a b => b.score ≤ a.score) := by
  induction l with
  | nil => simp [sortDesc]
  | cons p ps ih => exact insertDesc_sorted p _ ih

/-- For a positive finite limit, the slice count is the floor of the value. -/
theorem sliceCount_eq_floor (q : ℚ) (h : 0 < q) : sliceCount (JSNum.fin q) = ⌊q⌋₊ := by
  have hnum : 0 ≤ q.num := Rat.num_nonneg.mpr (le_of_lt h)
  have hrepr : ((q.num.toNat : ℚ) / (q.den : ℚ)) = q := by
    rw [show ((q.num.toNat : ℚ)) = ((q.num : ℤ) : ℚ) by
      rw [← Int.toNat_of_nonneg hnum]; push_cast; rw [Int.toNat_of_nonneg hnum]]
    exact Rat.num_div_den q
  have := Rat.natFloor_natCast_div_natCast q.num.toNat q.den
  rw [hrepr] at this
  simp [sliceCount, not_le.mpr h, this]

/-- C8 counterexample: with one stored record in the default category, a
supplied limit that is not a number (`Number("abc") = NaN`) produces an empty
result — the effective limit is 0, outside the claimed interval `[1, 200]` —
while the same query without a limit returns the record. -/
theorem nan_limit_counterexample :
    scoresHandler [{ name := "eve", category := "overall", score := 1,
                     createdAt := 0, updatedAt := 0 }] none (some JSNum.nan) = [] ∧
    scoresHandler [{ name := "eve", category := "overall", score := 1,
                     createdAt := 0, updatedAt := 0 }] none none
      = [{ name := "eve", category := "overall", score := 1,
           createdAt := 0, updatedAt := 0 }] := by decide

/-- C8 amended: the leaderboard query returns exactly the records of the
requested category (defaulting to "overall"), stably sorted by score
descending and truncated to the effective limit; when the limit is omitted
the effective limit is 50, and when the supplied limit converts to a finite
number the effective limit is its clamp to `[1, 200]` (floored) — but a
limit that converts to NaN yields an effective limit of 0 (empty result),
so the `[1, 200]` bound only holds for numeric limits. -/
theorem scores_query_spec (players : List Player) (category : Option String)
    (limitNum : Option JSNum)
    (h : limitNum = none ∨ ∃ q : ℚ, limitNum = some (JSNum.fin q)) :
    ∃ n : Nat, 1 ≤ n ∧ n ≤ 200 ∧ (limitNum = none → n = 50) ∧
      scoresHandler players category limitNum
        = (sortDesc (players.filter
            (fun p => catKey p.category == category.getD "overall"))).take n ∧
      (scoresHandler players category limitNum).Pairwise
        (fun a b => b.score ≤ a.score) ∧
      (∀ p ∈ scoresHandler players category limitNum,
        catKey p.category = category.getD "overall") ∧
      (sortDesc (players.filter
        (fun p => catKey p.category == category.getD "overall"))).Perm
        (players.filter (fun p => catKey p.category == category.getD "overall")) := by
  have main : ∀ n : Nat,
      scoresHandler players category limitNum
        = (sortDesc (players.filter
            (fun p => catKey p.category == category.getD "overall"))).take n →
      (scoresHandler players category limitNum).Pairwise
        (fun a b => b.score ≤ a.score) ∧
      (∀ p ∈ scoresHandler players category limitNum,
        catKey p.category = category.getD "overall") := by
    intro n hn
    constructor
    · rw [hn]
      exact (sortDesc_sorted _).sublist (List.take_sublist n _)
    · intro p hp
      rw [hn] at hp
      have hmem := (sortDesc_perm _).mem_iff.mp ((List.take_sublist n _).subset hp)
      have := (List.mem_filter.mp hmem).2
      exact eq_of_beq this
  rcases h with hnone | ⟨q, hq⟩
  · subst hnone
    have h50 : sliceCount (jsMax (JSNum.fin 1)
        (jsMin (JSNum.fin 200) ((none : Option JSNum).getD (JSNum.fin 50)))) = 50 := by
      decide
    have heq : scoresHandler players category none
        = (sortDesc (players.filter
            (fun p => catKey p.category == category.getD "overall"))).take 50 := by
      simp only [scoresHandler]
      rw [h50]
    obtain ⟨hs, hm⟩ := main 50 heq
    exact ⟨50, by norm_num, by norm_num, fun _ => rfl, heq, hs, hm, sortDesc_perm _⟩
  · subst hq
    set x : ℚ := max 1 (min 200 q) with hx
    have hx1 : (1 : ℚ) ≤ x := le_max_left 1 (min 200 q)
    have hx200 : x ≤ 200 := max_le (by norm_num) (min_le_left 200 q)
    have hxpos : (0 : ℚ) < x := lt_of_lt_of_le (by norm_num) hx1
    have hfloor := sliceCount_eq_floor x hxpos
    have hlow : 1 ≤ sliceCount (JSNum.fin x) := by
      rw [hfloor]
      exact Nat.le_floor (by exact_mod_cast hx1)
    have hhigh : sliceCount (JSNum.fin x) ≤ 200 := by
      rw [hfloor]
      calc ⌊x⌋₊ ≤ ⌊(200 : ℚ)⌋₊ := Nat.floor_le_floor hx200
        _ = 200 := by norm_num
    have heq : scoresHandler players category (some (JSNum.fin q))
        = (sortDesc (players.filter
            (fun p => catKey p.category == category.getD "overall"))).take
          (sliceCount (JSNum.fin x)) := by
      unfold scoresHandler
      rfl
    obtain ⟨hs, hm⟩ := main (sliceCount (JSNum.fin x)) heq
    exact ⟨sliceCount (JSNum.fin x), hlow, hhigh, by simp, heq, hs, hm, sortDesc_perm _⟩

/-- Witness for the amended C8 at a concrete store and a numeric limit. -/
theorem scores_query_spec_witness :
    ∃ n : Nat, 1 ≤ n ∧ n ≤ 200 ∧
      ((some (JSNum.fin 3) : Option JSNum) = none → n = 50) ∧
      scoresHandler
          [{ name := "eve", category := "overall", score := 1, createdAt := 0,
             updatedAt := 0 },
           { name := "fred", category := "easy", score := 4, createdAt := 0,
             updatedAt := 0 }]
          none (some (JSNum.fin 3))
        = (sortDesc (List.filter
            (fun p => catKey p.category == (none : Option String).getD "overall")
            [{ name := "eve", category := "overall", score := 1, createdAt := 0,
               updatedAt := 0 },
             { name := "fred", category := "easy", score := 4, createdAt := 0,
               updatedAt := 0 }])).take n ∧
      (scoresHandler
          [{ name := "eve", category := "overall", score := 1, createdAt := 0,
             updatedAt := 0 },
           { name := "fred", category := "easy", score := 4, createdAt := 0,
             updatedAt := 0 }]
          none (some (JSNum.fin 3))).Pairwise (fun a b => b.score ≤ a.score) ∧
      (∀ p ∈ scoresHandler
          [{ name := "eve", category := "overall", score := 1, createdAt := 0,
             updatedAt := 0 },
           { name := "fred", category := "easy", score := 4, createdAt := 0,
             updatedAt := 0 }]
          none (some (JSNum.fin 3)),
        catKey p.category = (none : Option String).getD "overall") ∧
      (sortDesc (List.filter
          (fun p => catKey p.category == (none : Option String).getD "overall")
          [{ name := "eve", category := "overall", score := 1, createdAt := 0,
             updatedAt := 0 },
           { name := "fred", category := "easy", score := 4, createdAt := 0,
             updatedAt := 0 }])).Perm
        (List.filter
          (fun p => catKey p.category == (none : Option String).getD "overall")
          [{ name := "eve", category := "overall", score := 1, createdAt := 0,
             updatedAt := 0 },
           { name := "fred", category := "easy", score := 4, createdAt := 0,
             updatedAt := 0 }]) :=
  scores_query_spec
    [{ name := "eve", category := "overall", score := 1, createdAt := 0,
       updatedAt := 0 },
     { name := "fred", category := "easy", score := 4, createdAt := 0,
       updatedAt := 0 }]
    none (some (JSNum.fin 3)) (Or.inr ⟨3, rfl⟩)

/-- C9: `percentOfCatalog` (modelled from the spec, which is its only
definition in this repository) equals `round(100 * distinctKeys(counts) / T)`
clamped to `[0, 100]`, counting every key present regardless of its value;
it returns 0 on absent/null/malformed or empty input or when `T = 0`, and
its result is always at most 100 (hence within `[0, 100]` on naturals). -/
theorem percentOfCatalog_spec (T : Nat) (counts : CCField) :
    percentOfCatalog T counts ≤ 100 ∧
    ((counts = CCField.absent ∨ counts = CCField.nullv ∨ counts = CCField.nonObject) →
      percentOfCatalog T counts = 0) ∧
    percentOfCatalog T (CCField.obj []) = 0 ∧
    (T = 0 → percentOfCatalog T counts = 0) ∧
    (∀ m, counts = CCField.obj m → T ≠ 0 →
      (percentOfCatalog T counts : ℤ)
        = min 100 (max 0 (round ((100 * (distinctKeys m : ℚ)) / (T : ℚ))))) := by
  refine ⟨?_, ?_, ?_, ?_, ?_⟩
  · cases counts with
    | obj m =>
      simp only [percentOfCatalog]
      split
      · norm_num
      · exact min_le_left _ _
    | absent => simp [percentOfCatalog]
    | nullv => simp [percentOfCatalog]
    | nonObject => simp [percentOfCatalog]
  · rintro (rfl | rfl | rfl) <;> rfl
  · simp [percentOfCatalog, distinctKeys]
  · rintro rfl
    cases counts <;> simp [percentOfCatalog]
  · rintro m rfl hT
    by_cases hk : distinctKeys m = 0
    · simp [percentOfCatalog, hk]
    · have hTQ : (T : ℚ) ≠ 0 := Nat.cast_ne_zero.mpr hT
      have key : (100 * (distinctKeys m : ℚ)) / (T : ℚ) + 1 / 2
          = ((200 * distinctKeys m + T : ℕ) : ℚ) / ((2 * T : ℕ) : ℚ) := by
        push_cast
        field_simp
        ring
      have hround : round ((100 * (distinctKeys m : ℚ)) / (T : ℚ))
          = (((200 * distinctKeys m + T) / (2 * T) : ℕ) : ℤ) := by
        rw [round_eq, key, Rat.floor_natCast_div_natCast]
        exact (Int.natCast_ediv _ _).symm
      rw [hround, max_eq_right (Int.ofNat_nonneg _)]
      simp only [percentOfCatalog]
      rw [if_neg (by push_neg; exact ⟨hT, hk⟩)]
      push_cast
      rfl

/-- Witness for C9 at the spec's own example: catalog size 10 and counts
`{"1": 2, "2": 0}` give 20 percent (the zero-valued key still counts). -/
theorem percentOfCatalog_spec_witness :
    percentOfCatalog 10 (CCField.obj [("1", 2), ("2", 0)]) ≤ 100 ∧
    percentOfCatalog 10 CCField.absent = 0 ∧
    percentOfCatalog 0 (CCField.obj [("1", 2)]) = 0 ∧
    (percentOfCatalog 10 (CCField.obj [("1", 2), ("2", 0)]) : ℤ)
      = min 100 (max 0 (round
          ((100 * (distinctKeys [("1", 2), ("2", 0)] : ℚ)) / ((10 : ℕ) : ℚ)))) ∧
    percentOfCatalog 10 (CCField.obj [("1", 2), ("2", 0)]) = 20 :=
  ⟨(percentOfCatalog_spec 10 (CCField.obj [("1", 2), ("2", 0)])).1,
   (percentOfCatalog_spec 10 CCField.absent).2.1 (Or.inl rfl),
   (percentOfCatalog_spec 0 (CCField.obj [("1", 2)])).2.2.2.1 rfl,
   (percentOfCatalog_spec 10 (CCField.obj [("1", 2), ("2", 0)])).2.2.2.2
     [("1", 2), ("2", 0)] rfl (by norm_num),
   by decide⟩

end Scoreboard
